import Mathlib

/-!
Verification of the browser-side API client in `frontend/src/api.js`.

The stream consumer `sendMessageStream` reads byte chunks from an HTTP
response body, decodes each chunk with a `TextDecoder` (called without the
streaming option), splits the decoded text of each chunk on newline
characters, and for every resulting line that starts with `data: ` attempts
to `JSON.parse` the remainder; on success it calls `onEvent(event.type, event)`,
on failure it logs and continues.  Both the parse and the `event.type`
property access sit inside the try, so a payload of the JSON literal
`null` throws a caught TypeError and the record is dropped.  The request
helpers build headers via `getHeaders(sharedSecret)`.

The embedding below models:
  - JSON values and `JSON.parse` (an executable parser over character lists;
    numeric literals are kept as their source text since no property here
    inspects numeric values),
  - the WHATWG UTF-8 decoder in its non-streaming form (`utf8Decode`, which
    flushes at the end of each chunk) and UTF-8 validity (`utf8Valid`),
  - the per-chunk line splitting and event extraction of `sendMessageStream`,
  - the header construction of `getHeaders` and the request each operation
    issues,
  - and, for comparison, the buffered record-assembly machine that the
    specification describes (`specRun` / `specBufferedEvents`).
-/

/-- JSON values as produced by `JSON.parse`.  Object fields keep their
source order; numeric literals are kept as text because nothing in the
client inspects numeric values. -/
inductive Json where
  | null : Json
  | bool (b : Bool) : Json
  | num (lit : String) : Json
  | str (s : String) : Json
  | arr (elems : List Json) : Json
  | obj (fields : List (String × Json)) : Json

/-- JavaScript property access `o.k` for a parsed JSON value: the field of
an object when present (for duplicate keys the later one wins, as in
`JSON.parse`), `undefined` (here `none`) otherwise. -/
def Json.getField (v : Json) (key : String) : Option Json :=
  match v with
  | .obj fields => List.lookup key fields.reverse
  | _ => none

/-- Whether a parsed JSON value is the literal `null`. -/
def Json.isNull : Json → Bool
  | .null => true
  | _ => false

/-- JavaScript property access `o.k` as the operation the code actually
performs, which can throw: on `null` the access raises a TypeError
(`none`); on an object it yields the field or `undefined`; on any other
value (string, number, boolean, array) it yields `undefined` via boxing. -/
def Json.tryGetField (v : Json) (key : String) : Option (Option Json) :=
  match v with
  | .null => none
  | .obj fields => some (List.lookup key fields.reverse)
  | _ => some none

/-- JSON whitespace. -/
def jsonWs (c : Char) : Bool :=
  c = ' ' || c = '\t' || c = '\n' || c = '\r'

/-- Skip leading JSON whitespace. -/
def skipWs : List Char → List Char
  | [] => []
  | c :: r => if jsonWs c then skipWs r else c :: r

/-- Hexadecimal digit value. -/
def hexVal (c : Char) : Option Nat :=
  if '0' ≤ c ∧ c ≤ '9' then some (c.toNat - '0'.toNat)
  else if 'a' ≤ c ∧ c ≤ 'f' then some (c.toNat - 'a'.toNat + 10)
  else if 'A' ≤ c ∧ c ≤ 'F' then some (c.toNat - 'A'.toNat + 10)
  else none

/-- Prepend a decoded character to the result of parsing the rest of a
string body. -/
def consChar (ch : Char) : Option (List Char × List Char) →
    Option (List Char × List Char)
  | some (cs, rem) => some (ch :: cs, rem)
  | none => none

/-- Parse the body of a JSON string literal (after the opening quote),
returning the decoded characters and the input after the closing quote.
A `\u` escape denoting a lone UTF-16 surrogate is mapped to U+FFFD
(a JavaScript string can hold it, a `Char` cannot); surrogate pairs are
combined into the encoded code point.  The fuel argument only bounds the
recursion; every recursive call consumes at least one input character, so
fuel of one more than the input length never runs out. -/
def parseStrBody : Nat → List Char → Option (List Char × List Char)
  | 0, _ => none
  | _, [] => none
  | fuel + 1, c :: r =>
    if c = '"' then some ([], r)
    else if c = '\\' then
      match r with
      | [] => none
      | e :: r2 =>
        if e = '"' then consChar '"' (parseStrBody fuel r2)
        else if e = '\\' then consChar '\\' (parseStrBody fuel r2)
        else if e = '/' then consChar '/' (parseStrBody fuel r2)
        else if e = 'b' then consChar '\x08' (parseStrBody fuel r2)
        else if e = 'f' then consChar '\x0c' (parseStrBody fuel r2)
        else if e = 'n' then consChar '\n' (parseStrBody fuel r2)
        else if e = 'r' then consChar '\r' (parseStrBody fuel r2)
        else if e = 't' then consChar '\t' (parseStrBody fuel r2)
        else if e = 'u' then
          match r2 with
          | h1 :: h2 :: h3 :: h4 :: r3 =>
            match hexVal h1, hexVal h2, hexVal h3, hexVal h4 with
            | some a, some b, some c1, some d =>
              let n := ((a * 16 + b) * 16 + c1) * 16 + d
              if 0xD800 ≤ n ∧ n ≤ 0xDBFF then
                match r3 with
                | '\\' :: 'u' :: g1 :: g2 :: g3 :: g4 :: r4 =>
                  match hexVal g1, hexVal g2, hexVal g3, hexVal g4 with
                  | some a2, some b2, some c2, some d2 =>
                    let m := ((a2 * 16 + b2) * 16 + c2) * 16 + d2
                    if 0xDC00 ≤ m ∧ m ≤ 0xDFFF then
                      consChar (Char.ofNat (0x10000 + (n - 0xD800) * 0x400 + (m - 0xDC00)))
                        (parseStrBody fuel r4)
                    else consChar '�' (parseStrBody fuel ('\\' :: 'u' :: g1 :: g2 :: g3 :: g4 :: r4))
                  | _, _, _, _ =>
                    consChar '�' (parseStrBody fuel ('\\' :: 'u' :: g1 :: g2 :: g3 :: g4 :: r4))
                | _ => consChar '�' (parseStrBody fuel r3)
              else if 0xDC00 ≤ n ∧ n ≤ 0xDFFF then consChar '�' (parseStrBody fuel r3)
              else consChar (Char.ofNat n) (parseStrBody fuel r3)
            | _, _, _, _ => none
          | _ => none
        else none
    else if c.toNat < 0x20 then none
    else consChar c (parseStrBody fuel r)

/-- One or more decimal digits, returned verbatim. -/
def parseDigits : List Char → Option (List Char × List Char)
  | [] => none
  | c :: r =>
    if c.isDigit then
      match parseDigits r with
      | some (ds, rem) => some (c :: ds, rem)
      | none => some ([c], r)
    else none

/-- Parse an optional exponent part after the mantissa of a JSON number. -/
def numExp (mant : List Char) (s3 : List Char) : Option (List Char × List Char) :=
  match s3 with
  | e :: r3 =>
    if e = 'e' ∨ e = 'E' then
      let (es, r4) :=
        match r3 with
        | '+' :: r5 => (['+'], r5)
        | '-' :: r5 => (['-'], r5)
        | _ => ([], r3)
      match parseDigits r4 with
      | some (ds, rem) => some (mant ++ e :: es ++ ds, rem)
      | none => none
    else some (mant, s3)
  | [] => some (mant, [])

/-- Parse an optional fraction part after the integer part of a JSON
number, then the optional exponent. -/
def numTail (intPart : List Char) (s2 : List Char) :
    Option (List Char × List Char) :=
  match s2 with
  | '.' :: r2 =>
    match parseDigits r2 with
    | some (ds, rem) => numExp (intPart ++ '.' :: ds) rem
    | none => none
  | _ => numExp intPart s2

/-- Parse a JSON numeric literal, returning its source text. -/
def parseNum (s : List Char) : Option (List Char × List Char) :=
  let (sign, s1) :=
    match s with
    | '-' :: r => (['-'], r)
    | _ => ([], s)
  match s1 with
  | [] => none
  | c :: r =>
    if c = '0' then numTail (sign ++ ['0']) r
    else if c.isDigit then
      match parseDigits (c :: r) with
      | some (ds, s2) => numTail (sign ++ ds) s2
      | none => none
    else none

mutual

/-- Parse one JSON value (fuelled recursion). -/
def parseVal : Nat → List Char → Option (Json × List Char)
  | 0, _ => none
  | fuel + 1, s =>
    match skipWs s with
    | [] => none
    | c :: r =>
      if c = 'n' then
        match r with
        | 'u' :: 'l' :: 'l' :: r2 => some (.null, r2)
        | _ => none
      else if c = 't' then
        match r with
        | 'r' :: 'u' :: 'e' :: r2 => some (.bool true, r2)
        | _ => none
      else if c = 'f' then
        match r with
        | 'a' :: 'l' :: 's' :: 'e' :: r2 => some (.bool false, r2)
        | _ => none
      else if c = '"' then
        match parseStrBody (r.length + 1) r with
        | some (cs, r2) => some (.str (String.mk cs), r2)
        | none => none
      else if c = '\x5b' then
        match skipWs r with
        | '\x5d' :: r2 => some (.arr [], r2)
        | _ =>
          match parseArrItems fuel r with
          | some (elems, r2) => some (.arr elems, r2)
          | none => none
      else if c = '\x7b' then
        match skipWs r with
        | '\x7d' :: r2 => some (.obj [], r2)
        | _ =>
          match parseObjItems fuel r with
          | some (fields, r2) => some (.obj fields, r2)
          | none => none
      else if c = '-' ∨ c.isDigit then
        match parseNum (c :: r) with
        | some (lit, r2) => some (.num (String.mk lit), r2)
        | none => none
      else none

/-- Parse the elements of a non-empty JSON array, up to and including the
closing bracket. -/
def parseArrItems : Nat → List Char → Option (List Json × List Char)
  | 0, _ => none
  | fuel + 1, s =>
    match parseVal fuel s with
    | some (v, r) =>
      match skipWs r with
      | ',' :: r2 =>
        match parseArrItems fuel r2 with
        | some (vs, r3) => some (v :: vs, r3)
        | none => none
      | '\x5d' :: r2 => some ([v], r2)
      | _ => none
    | none => none

/-- Parse the members of a non-empty JSON object, up to and including the
closing brace. -/
def parseObjItems : Nat → List Char → Option (List (String × Json) × List Char)
  | 0, _ => none
  | fuel + 1, s =>
    match skipWs s with
    | '"' :: r =>
      match parseStrBody (r.length + 1) r with
      | some (ks, r2) =>
        match skipWs r2 with
        | ':' :: r3 =>
          match parseVal fuel r3 with
          | some (v, r4) =>
            match skipWs r4 with
            | ',' :: r5 =>
              match parseObjItems fuel r5 with
              | some (fs, r6) => some ((String.mk ks, v) :: fs, r6)
              | none => none
            | '\x7d' :: r5 => some ([(String.mk ks, v)], r5)
            | _ => none
          | none => none
        | _ => none
      | none => none
    | _ => none

end

/-- The model of `JSON.parse`: parse one value and require only whitespace
after it; any failure (an exception in JavaScript) is `none`. -/
def jsonParse (s : List Char) : Option Json :=
  match parseVal (2 * s.length + 4) s with
  | some (v, rest) => if skipWs rest = [] then some v else none
  | none => none

example : jsonParse "\x7b\"type\":\"a\"\x7d".toList =
    some (.obj [("type", .str "a")]) := rfl

example : jsonParse "\x7b bad".toList = none := rfl

/-- The Unicode replacement character U+FFFD. -/
def replChar : Char := '�'

/-- The WHATWG UTF-8 decoder, as run by `TextDecoder().decode(value)`
without the streaming option: the whole byte list is decoded and a
truncated trailing sequence is flushed to a single replacement character.
Malformed input produces U+FFFD and resumes at the offending byte, as the
standard prescribes. -/
def utf8Decode : List Nat → List Char
  | [] => []
  | b :: rest =>
    if b ≤ 0x7F then Char.ofNat b :: utf8Decode rest
    else if 0xC2 ≤ b ∧ b ≤ 0xDF then
      match rest with
      | [] => [replChar]
      | b1 :: r1 =>
        if 0x80 ≤ b1 ∧ b1 ≤ 0xBF then
          Char.ofNat ((b - 0xC0) * 0x40 + (b1 - 0x80)) :: utf8Decode r1
        else replChar :: utf8Decode (b1 :: r1)
    else if 0xE0 ≤ b ∧ b ≤ 0xEF then
      match rest with
      | [] => [replChar]
      | b1 :: r1 =>
        if (if b = 0xE0 then 0xA0 else 0x80) ≤ b1 ∧
            b1 ≤ (if b = 0xED then 0x9F else 0xBF) then
          match r1 with
          | [] => [replChar]
          | b2 :: r2 =>
            if 0x80 ≤ b2 ∧ b2 ≤ 0xBF then
              Char.ofNat ((b - 0xE0) * 0x1000 + (b1 - 0x80) * 0x40 + (b2 - 0x80)) ::
                utf8Decode r2
            else replChar :: utf8Decode (b2 :: r2)
        else replChar :: utf8Decode (b1 :: r1)
    else if 0xF0 ≤ b ∧ b ≤ 0xF4 then
      match rest with
      | [] => [replChar]
      | b1 :: r1 =>
        if (if b = 0xF0 then 0x90 else 0x80) ≤ b1 ∧
            b1 ≤ (if b = 0xF4 then 0x8F else 0xBF) then
          match r1 with
          | [] => [replChar]
          | b2 :: r2 =>
            if 0x80 ≤ b2 ∧ b2 ≤ 0xBF then
              match r2 with
              | [] => [replChar]
              | b3 :: r3 =>
                if 0x80 ≤ b3 ∧ b3 ≤ 0xBF then
                  Char.ofNat ((b - 0xF0) * 0x40000 + (b1 - 0x80) * 0x1000 +
                    (b2 - 0x80) * 0x40 + (b3 - 0x80)) :: utf8Decode r3
                else replChar :: utf8Decode (b3 :: r3)
            else replChar :: utf8Decode (b2 :: r2)
        else replChar :: utf8Decode (b1 :: r1)
    else replChar :: utf8Decode rest

/-- The UTF-8 bytes of an ASCII-only string, as sent over the wire in the
concrete test streams below. -/
def asciiBytes (s : String) : List Nat :=
  s.toList.map Char.toNat

example : utf8Decode [0xC3, 0xA9] = ['é'] := by decide

example : utf8Decode [0xC3] ++ utf8Decode [0xA9] = [replChar, replChar] := by decide

/-- JavaScript `chunk.split('\n')` on a character list: the segments
between newline characters, in order, including empty ones; without a
newline the whole text is the single segment. -/
def splitNl : List Char → List (List Char)
  | [] => [[]]
  | c :: rest =>
    if c = '\n' then [] :: splitNl rest
    else
      match splitNl rest with
      | s :: ss => (c :: s) :: ss
      | [] => [[c]]

/-- The literal line marker `data: ` that event-bearing records start
with. -/
def dataMark : List Char := ['d', 'a', 't', 'a', ':', ' ']

/-- The body of the `for (const line of lines)` loop of
`sendMessageStream`: a line starting with `data: ` has the marker sliced
off and the remainder parsed as JSON.  Both the parse and the property
access `event.type` happen inside the try, so the callback arguments
`(event.type, event)` are produced only when the parse succeeds AND the
access does not throw; a parse failure or a TypeError from `event.type`
on a `null` payload is caught and the record is dropped, and a line
without the marker produces nothing. -/
def processLine (line : List Char) : Option (Option Json × Json) :=
  if line.take 6 = dataMark then
    match jsonParse (line.drop 6) with
    | some event =>
      match event.tryGetField "type" with
      | some t => some (t, event)
      | none => none
    | none => none
  else none

/-- One iteration of the read loop of `sendMessageStream` on the decoded
text of one chunk: split on newlines and process every resulting line. -/
def processChunk (chunk : List Char) : List (Option Json × Json) :=
  (splitNl chunk).filterMap processLine

/-- The callback invocations, in order, that the read loop of
`sendMessageStream` performs on a sequence of decoded text chunks. -/
def streamEvents (chunks : List (List Char)) : List (Option Json × Json) :=
  (chunks.map processChunk).flatten

/-- The callback invocations, in order, that `sendMessageStream` performs
on a sequence of raw byte chunks: each chunk is decoded independently by
`decoder.decode(value)` and then processed. -/
def sendMessageStreamEvents (byteChunks : List (List Nat)) :
    List (Option Json × Json) :=
  streamEvents (byteChunks.map utf8Decode)

/-- Errors surfaced to callers of the client. -/
inductive ApiError where
  | requestFailed (msg : String)

/-- The observable input to the streaming read phase: the status check
outcome of the initial response and the byte chunks its body would
deliver. -/
structure StreamResponse where
  ok : Bool
  chunks : List (List Nat)

/-- The outcome of a `sendMessageStream` call on a given response: a thrown
`Error('Failed to send message')` when the status is not ok (before any
read), otherwise the ordered list of callback invocations. -/
def sendMessageStream (resp : StreamResponse) :
    Except ApiError (List (Option Json × Json)) :=
  if resp.ok then .ok (sendMessageStreamEvents resp.chunks)
  else .error (.requestFailed "Failed to send message")

/-- The per-chunk step of the record-assembly machine that the
specification describes (stated here only for comparison with the code):
append the decoded text to the pending buffer, split on newlines, treat
all but the last segment as complete records, and keep exactly the last
segment as the new buffer. -/
def specStep (buf chunk : List Char) : List (List Char) × List Char :=
  let segs := splitNl (buf ++ chunk)
  (segs.dropLast, segs.getLastD [])

/-- Run the specification's buffered machine over a chunk sequence,
returning the complete records in order and the final pending buffer. -/
def specRun (buf : List Char) : List (List Char) → List (List Char) × List Char
  | [] => ([], buf)
  | c :: cs =>
    let step := specStep buf c
    let rest := specRun step.2 cs
    (step.1 ++ rest.1, rest.2)

/-- The callback invocations the specification's buffered machine would
perform: only complete (newline-terminated) records are processed; the
final pending buffer is discarded. -/
def specBufferedEvents (chunks : List (List Char)) : List (Option Json × Json) :=
  ((specRun [] chunks).1).filterMap processLine

/-- The header object built by `getHeaders(sharedSecret)`: always a JSON
content type, plus the shared secret header exactly when the argument is
truthy (a JavaScript string is truthy iff it is non-empty; `null` is
falsy). -/
def getHeaders (sharedSecret : Option String) : List (String × String) :=
  match sharedSecret with
  | some s =>
    if s = "" then [("Content-Type", "application/json")]
    else [("Content-Type", "application/json"), ("X-Shared-Secret", s)]
  | none => [("Content-Type", "application/json")]

/-- An HTTP request as assembled by the client: method, URL, headers and
an optional JSON body (the code builds bodies with `JSON.stringify`; the
body is kept as its JSON value since no property here inspects the
serialized text). -/
structure Request where
  method : String
  url : String
  headers : List (String × String)
  body : Option Json

/-- The request issued by `api.listConversations`. -/
def listConversationsRequest (apiBase : String) (sharedSecret : Option String) :
    Request :=
  { method := "GET", url := apiBase ++ "/api/conversations",
    headers := getHeaders sharedSecret, body := none }

/-- The request issued by `api.createConversation`. -/
def createConversationRequest (apiBase : String) (sharedSecret : Option String) :
    Request :=
  { method := "POST", url := apiBase ++ "/api/conversations",
    headers := getHeaders sharedSecret, body := some (Json.obj []) }

/-- The request issued by `api.getConversation`. -/
def getConversationRequest (apiBase conversationId : String)
    (sharedSecret : Option String) : Request :=
  { method := "GET", url := apiBase ++ "/api/conversations/" ++ conversationId,
    headers := getHeaders sharedSecret, body := none }

/-- The request issued by `api.sendMessage`. -/
def sendMessageRequest (apiBase conversationId content : String)
    (sharedSecret : Option String) : Request :=
  { method := "POST",
    url := apiBase ++ "/api/conversations/" ++ conversationId ++ "/message",
    headers := getHeaders sharedSecret,
    body := some (Json.obj [("content", Json.str content)]) }

/-- The request issued by `api.sendMessageStream`. -/
def sendMessageStreamRequest (apiBase conversationId content : String)
    (sharedSecret : Option String) : Request :=
  { method := "POST",
    url := apiBase ++ "/api/conversations/" ++ conversationId ++ "/message/stream",
    headers := getHeaders sharedSecret,
    body := some (Json.obj [("content", Json.str content)]) }

example :
    streamEvents ["data: \x7b\"type\":\"a\"\x7d\n".toList] =
      [(some (.str "a"), .obj [("type", .str "a")])] := rfl

/-- A chunk whose text is a whole number of newline-terminated records:
chunk boundaries aligned with record boundaries. -/
def chunkOfRecords (rs : List (List Char)) : List Char :=
  (rs.map (fun r => r ++ ['\n'])).flatten

/-- The callback arguments produced for an event-bearing record whose
payload parses: the parsed value tagged with its `type` field. -/
def eventOf (r : List Char) : Option Json × Json :=
  match jsonParse (r.drop 6) with
  | some v => (v.getField "type", v)
  | none => (none, .null)

theorem splitNl_ne_nil (s : List Char) : splitNl s ≠ [] := by
  induction s with
  | nil => simp [splitNl]
  | cons c rest ih =>
    by_cases hc : c = '\n'
    · simp [splitNl, hc]
    · cases h : splitNl rest with
      | nil => exact absurd h ih
      | cons a as => simp [splitNl, hc, h]

theorem splitNl_no_nl {a : List Char} (h : '\n' ∉ a) : splitNl a = [a] := by
  induction a with
  | nil => rfl
  | cons c rest ih =>
    have hc : ¬ c = '\n' := fun e => h (by simp [e])
    have hr : '\n' ∉ rest := fun m => h (List.mem_cons_of_mem _ m)
    simp [splitNl, hc, ih hr]

theorem splitNl_append_nl {a : List Char} (b : List Char) (h : '\n' ∉ a) :
    splitNl (a ++ '\n' :: b) = a :: splitNl b := by
  induction a with
  | nil => simp [splitNl]
  | cons c rest ih =>
    have hc : ¬ c = '\n' := fun e => h (by simp [e])
    have hr : '\n' ∉ rest := fun m => h (List.mem_cons_of_mem _ m)
    simp [splitNl, hc, ih hr]

theorem splitNl_concat_nl (a : List Char) :
    splitNl (a ++ ['\n']) = splitNl a ++ [[]] := by
  induction a with
  | nil => simp [splitNl]
  | cons c rest ih =>
    by_cases hc : c = '\n'
    · simp [splitNl, hc, ih]
    · cases h : splitNl rest with
      | nil => exact absurd h (splitNl_ne_nil rest)
      | cons s ss => simp [splitNl, hc, ih, h]

theorem processLine_nil : processLine [] = none := rfl

theorem processLine_eq_some {r : List Char} {v : Json}
    (h2 : r.take 6 = dataMark) (h3 : jsonParse (r.drop 6) = some v)
    (h4 : v.isNull = false) :
    processLine r = some (v.getField "type", v) := by
  have ht : v.tryGetField "type" = some (v.getField "type") := by
    cases v <;> simp_all [Json.isNull, Json.tryGetField, Json.getField]
  simp [processLine, h2, h3, ht]

theorem processLine_eq_none_of_null {r : List Char}
    (h3 : jsonParse (r.drop 6) = some Json.null) : processLine r = none := by
  unfold processLine
  split
  · rw [h3]
    rfl
  · rfl

theorem processLine_eq_none_of_bad_json {r : List Char}
    (h3 : jsonParse (r.drop 6) = none) : processLine r = none := by
  unfold processLine
  split
  · rw [h3]
  · rfl

theorem processLine_eq_none_of_no_mark {r : List Char}
    (h2 : r.take 6 ≠ dataMark) : processLine r = none := by
  simp [processLine, h2]

theorem streamEvents_append (xs ys : List (List Char)) :
    streamEvents (xs ++ ys) = streamEvents xs ++ streamEvents ys := by
  simp [streamEvents]

theorem streamEvents_cons (c : List Char) (cs : List (List Char)) :
    streamEvents (c :: cs) = processChunk c ++ streamEvents cs := by
  simp [streamEvents]

theorem processChunk_record_some {r : List Char} {e : Option Json × Json}
    (h : '\n' ∉ r) (hp : processLine r = some e) :
    processChunk (r ++ ['\n']) = [e] := by
  have : splitNl (r ++ ['\n']) = [r, []] := by
    simpa using splitNl_append_nl [] h
  simp [processChunk, this, hp, processLine_nil]

theorem processChunk_record_none {r : List Char}
    (h : '\n' ∉ r) (hp : processLine r = none) :
    processChunk (r ++ ['\n']) = [] := by
  have : splitNl (r ++ ['\n']) = [r, []] := by
    simpa using splitNl_append_nl [] h
  simp [processChunk, this, hp, processLine_nil]

theorem processChunk_no_nl {r : List Char} (h : '\n' ∉ r) :
    processChunk r = (processLine r).toList := by
  cases hp : processLine r <;> simp [processChunk, splitNl_no_nl h, hp]

theorem specRun_newline_terminated (chunks : List (List Char)) :
    specRun [] (chunks.map (fun c => c ++ ['\n'])) =
      ((chunks.map splitNl).flatten, []) := by
  induction chunks with
  | nil => rfl
  | cons c cs ih =>
    have hstep : specStep [] (c ++ ['\n']) = (splitNl c, []) := by
      simp [specStep, splitNl_concat_nl, List.getLastD_concat]
    simp [specRun, hstep, ih]

theorem filterMap_flatten_eq {α β : Type} (f : α → Option β) (L : List (List α)) :
    (L.flatten).filterMap f = (L.map (fun l => l.filterMap f)).flatten := by
  induction L with
  | nil => rfl
  | cons l ls ih => simp [ih]

theorem splitNl_chunkOfRecords {rs : List (List Char)}
    (h : ∀ r ∈ rs, '\n' ∉ r) :
    splitNl (chunkOfRecords rs) = rs ++ [[]] := by
  induction rs with
  | nil => rfl
  | cons r rest ih =>
    have hr : '\n' ∉ r := h r (by simp)
    have hrest : ∀ x ∈ rest, '\n' ∉ x := fun x hx => h x (by simp [hx])
    have hsplit : chunkOfRecords (r :: rest) = r ++ '\n' :: chunkOfRecords rest := by
      simp [chunkOfRecords]
    rw [hsplit, splitNl_append_nl _ hr, ih hrest]
    rfl

theorem processChunk_chunkOfRecords {rs : List (List Char)}
    (h : ∀ r ∈ rs, '\n' ∉ r) :
    processChunk (chunkOfRecords rs) = rs.filterMap processLine := by
  simp [processChunk, splitNl_chunkOfRecords h, processLine_nil]

theorem filterMap_processLine_good {rs : List (List Char)}
    (h : ∀ r ∈ rs, r.take 6 = dataMark ∧ (jsonParse (r.drop 6)).isSome = true ∧
      ((jsonParse (r.drop 6)).getD Json.null).isNull = false) :
    rs.filterMap processLine = rs.map eventOf := by
  induction rs with
  | nil => rfl
  | cons r rest ih =>
    obtain ⟨h2, h3, h4⟩ := h r (by simp)
    obtain ⟨v, hv⟩ := Option.isSome_iff_exists.mp h3
    have h4v : v.isNull = false := by simpa [hv] using h4
    rw [List.filterMap_cons, processLine_eq_some h2 hv h4v, List.map_cons,
      ih (fun x hx => h x (by simp [hx]))]
    simp [eventOf, hv]

/-- C1: counterexample.  The claim says that for byte chunks whose
concatenated decoded text forms N newline-terminated `data: ` records with
valid JSON, the callback fires exactly N times regardless of chunk
boundaries.  Here the concatenated text of two chunks forms exactly one
such record (N = 1) but the boundary falls mid-record, and the code —
which splits each chunk on newlines separately and keeps no text between
chunks — fires the callback zero times. -/
theorem splitRecord_drops_event :
    utf8Decode (asciiBytes "data: \x7b\"typ" ++ asciiBytes "e\":\"a\"\x7d\n") =
      "data: \x7b\"type\":\"a\"\x7d".toList ++ ['\n'] ∧
    "data: \x7b\"type\":\"a\"\x7d".toList.take 6 = dataMark ∧
    jsonParse ("data: \x7b\"type\":\"a\"\x7d".toList.drop 6) =
      some (.obj [("type", .str "a")]) ∧
    sendMessageStreamEvents
      [asciiBytes "data: \x7b\"typ", asciiBytes "e\":\"a\"\x7d\n"] = [] :=
  ⟨by decide, by decide, rfl, rfl⟩

/-- C1 (amended): when every chunk consists of whole newline-terminated
records — no chunk boundary falls inside a record — and every record is a
`data: `-prefixed line whose payload parses as JSON to a value other than
the literal `null` (on a `null` payload the `event.type` access throws
inside the catch and the record is dropped), `sendMessageStream` invokes
the callback exactly once per record, in record order. -/
theorem alignedChunks_deliver_all_events (groups : List (List (List Char)))
    (h : ∀ r ∈ groups.flatten,
      '\n' ∉ r ∧ r.take 6 = dataMark ∧ (jsonParse (r.drop 6)).isSome = true ∧
      ((jsonParse (r.drop 6)).getD Json.null).isNull = false) :
    streamEvents (groups.map chunkOfRecords) = (groups.flatten).map eventOf := by
  induction groups with
  | nil => rfl
  | cons g gs ih =>
    have hg : ∀ r ∈ g, '\n' ∉ r := fun r hr => (h r (by simp [hr])).1
    have hgood : ∀ r ∈ g,
        r.take 6 = dataMark ∧ (jsonParse (r.drop 6)).isSome = true ∧
        ((jsonParse (r.drop 6)).getD Json.null).isNull = false :=
      fun r hr => (h r (by simp [hr])).2
    have hgs : ∀ r ∈ gs.flatten,
        '\n' ∉ r ∧ r.take 6 = dataMark ∧ (jsonParse (r.drop 6)).isSome = true ∧
        ((jsonParse (r.drop 6)).getD Json.null).isNull = false :=
      fun r hr => h r (by simp [hr])
    rw [List.map_cons, streamEvents_cons, processChunk_chunkOfRecords hg,
      filterMap_processLine_good hgood, List.flatten_cons, List.map_append,
      ih hgs]

/-- Witness for C1 (amended): two aligned chunks carrying one record each
deliver both events in order. -/
theorem alignedChunks_deliver_all_events_witness :
    (∀ r ∈ ([["data: \x7b\"type\":\"a\"\x7d".toList],
        ["data: \x7b\"type\":\"b\"\x7d".toList]] :
          List (List (List Char))).flatten,
      '\n' ∉ r ∧ r.take 6 = dataMark ∧ (jsonParse (r.drop 6)).isSome = true ∧
      ((jsonParse (r.drop 6)).getD Json.null).isNull = false) ∧
    streamEvents (([["data: \x7b\"type\":\"a\"\x7d".toList],
        ["data: \x7b\"type\":\"b\"\x7d".toList]] :
          List (List (List Char))).map chunkOfRecords) =
      ([["data: \x7b\"type\":\"a\"\x7d".toList],
        ["data: \x7b\"type\":\"b\"\x7d".toList]] :
          List (List (List Char))).flatten.map eventOf :=
  ⟨by decide, alignedChunks_deliver_all_events _ (by decide)⟩

/-- C2: counterexample.  The claim describes a pending buffer that, after
each chunk, holds the text after the last newline, with only the earlier
segments treated as complete records.  The code keeps no such buffer: on a
chunk with no newline the spec machine would buffer the whole text and
emit nothing, while the code processes the trailing segment immediately
and fires the callback. -/
theorem pendingBuffer_invariant_fails :
    streamEvents ["data: \x7b\"type\":\"a\"\x7d".toList] =
      [(some (.str "a"), .obj [("type", .str "a")])] ∧
    specBufferedEvents ["data: \x7b\"type\":\"a\"\x7d".toList] = [] ∧
    (specRun [] ["data: \x7b\"type\":\"a\"\x7d".toList]).2 =
      "data: \x7b\"type\":\"a\"\x7d".toList :=
  ⟨rfl, rfl, by decide⟩

/-- C2 (amended): the code carries no pending text between chunks; it
behaves exactly as the specified buffered machine would if every chunk
arrived newline-terminated (each chunk is split on newlines and all
segments, including the trailing one, are processed immediately). -/
theorem streamEvents_eq_buffered_of_terminated_chunks
    (chunks : List (List Char)) :
    streamEvents chunks =
      specBufferedEvents (chunks.map (fun c => c ++ ['\n'])) := by
  rw [specBufferedEvents, specRun_newline_terminated]
  simp only [streamEvents, filterMap_flatten_eq, List.map_map]
  rfl

/-- C3: counterexample.  The claim says a final record lacking a trailing
newline is never parsed and never delivered when the stream ends.  The
code processes the trailing segment of every chunk, so a well-formed final
record without a newline, contained in the last chunk, is delivered. -/
theorem trailing_record_delivered_at_close :
    sendMessageStreamEvents [asciiBytes "data: \x7b\"type\":\"c\"\x7d"] =
      [(some (.str "c"), .obj [("type", .str "c")])] := rfl

/-- C3 (amended): a final record lacking a trailing newline IS parsed and
delivered when it lies entirely within the final chunk and its payload
parses to a value other than the literal `null` (whose `event.type`
access would throw inside the catch); it is lost only when split across
chunk boundaries. -/
theorem trailing_record_processed_when_unsplit (chunks : List (List Char))
    (r : List Char) (v : Json) (h1 : '\n' ∉ r) (h2 : r.take 6 = dataMark)
    (h3 : jsonParse (r.drop 6) = some v) (h4 : v.isNull = false) :
    streamEvents (chunks ++ [r]) =
      streamEvents chunks ++ [(v.getField "type", v)] := by
  rw [streamEvents_append]
  congr 1
  simp [streamEvents, processChunk_no_nl h1, processLine_eq_some h2 h3 h4]

/-- Witness for C3 (amended): the specification's own end-of-stream
example, `data: {"type":"c"}` with no trailing newline, is delivered. -/
theorem trailing_record_processed_when_unsplit_witness :
    '\n' ∉ "data: \x7b\"type\":\"c\"\x7d".toList ∧
    "data: \x7b\"type\":\"c\"\x7d".toList.take 6 = dataMark ∧
    jsonParse ("data: \x7b\"type\":\"c\"\x7d".toList.drop 6) =
      some (.obj [("type", .str "c")]) ∧
    (Json.obj [("type", .str "c")]).isNull = false ∧
    streamEvents ([] ++ ["data: \x7b\"type\":\"c\"\x7d".toList]) =
      streamEvents [] ++
        [((Json.obj [("type", .str "c")]).getField "type",
          Json.obj [("type", .str "c")])] :=
  ⟨by decide, by decide, rfl, rfl,
    trailing_record_processed_when_unsplit [] _ _ (by decide) (by decide) rfl rfl⟩

/-- C5: a complete record that starts with `data: ` but whose payload is
not valid JSON is skipped — the `JSON.parse` exception is caught, the loop
continues, and every record in the following chunks is still delivered
unchanged. -/
theorem malformed_record_skipped (pre post : List (List Char))
    (bad : List Char) (h1 : '\n' ∉ bad) (_h2 : bad.take 6 = dataMark)
    (h3 : jsonParse (bad.drop 6) = none) :
    streamEvents (pre ++ [bad ++ ['\n']] ++ post) =
      streamEvents pre ++ streamEvents post := by
  rw [streamEvents_append, streamEvents_append]
  have hz : streamEvents [bad ++ ['\n']] = [] := by
    simp [streamEvents,
      processChunk_record_none h1 (processLine_eq_none_of_bad_json h3)]
  rw [hz]
  simp

/-- Witness for C5: an invalid-JSON record between two valid records
drops only itself; the following record is still delivered. -/
theorem malformed_record_skipped_witness :
    '\n' ∉ "data: \x7bbad".toList ∧
    "data: \x7bbad".toList.take 6 = dataMark ∧
    jsonParse ("data: \x7bbad".toList.drop 6) = none ∧
    streamEvents (["data: \x7b\"type\":\"a\"\x7d\n".toList] ++
        ["data: \x7bbad".toList ++ ['\n']] ++
        ["data: \x7b\"type\":\"b\"\x7d\n".toList]) =
      streamEvents ["data: \x7b\"type\":\"a\"\x7d\n".toList] ++
        streamEvents ["data: \x7b\"type\":\"b\"\x7d\n".toList] :=
  ⟨by decide, by decide, rfl,
    malformed_record_skipped _ _ _ (by decide) (by decide) rfl⟩

/-- C6: when the initial streaming POST response has a non-success status,
`sendMessageStream` throws `Error('Failed to send message')` before
reading anything: the outcome is the same error for every body, and no
callback invocation occurs. -/
theorem failed_stream_request_no_events (resp : StreamResponse)
    (h : resp.ok = false) :
    sendMessageStream resp =
      .error (.requestFailed "Failed to send message") ∧
    ∀ chunks, sendMessageStream { resp with chunks := chunks } =
      .error (.requestFailed "Failed to send message") := by
  refine ⟨?_, fun chunks => ?_⟩ <;> simp [sendMessageStream, h]

/-- Witness for C6: a not-ok response whose body holds a well-formed
event still yields the error and no events. -/
theorem failed_stream_request_no_events_witness :
    (StreamResponse.mk false
      [asciiBytes "data: \x7b\"type\":\"a\"\x7d\n"]).ok = false ∧
    sendMessageStream
      (StreamResponse.mk false [asciiBytes "data: \x7b\"type\":\"a\"\x7d\n"]) =
      .error (.requestFailed "Failed to send message") :=
  ⟨rfl, (failed_stream_request_no_events _ rfl).1⟩

/-- C7: a complete record that does not start with `data: ` never
triggers the callback and never causes an error: the stream's events are
exactly those of the surrounding chunks. -/
theorem non_event_record_ignored (pre post : List (List Char))
    (r : List Char) (h1 : '\n' ∉ r) (h2 : r.take 6 ≠ dataMark) :
    streamEvents (pre ++ [r ++ ['\n']] ++ post) =
      streamEvents pre ++ streamEvents post := by
  rw [streamEvents_append, streamEvents_append]
  have hz : streamEvents [r ++ ['\n']] = [] := by
    simp [streamEvents,
      processChunk_record_none h1 (processLine_eq_none_of_no_mark h2)]
  rw [hz]
  simp

/-- Witness for C7: an SSE comment line between two records is silently
discarded and both surrounding records are delivered. -/
theorem non_event_record_ignored_witness :
    '\n' ∉ ": keep-alive".toList ∧
    ": keep-alive".toList.take 6 ≠ dataMark ∧
    streamEvents (["data: \x7b\"type\":\"a\"\x7d\n".toList] ++
        [": keep-alive".toList ++ ['\n']] ++
        ["data: \x7b\"type\":\"b\"\x7d\n".toList]) =
      streamEvents ["data: \x7b\"type\":\"a\"\x7d\n".toList] ++
        streamEvents ["data: \x7b\"type\":\"b\"\x7d\n".toList] :=
  ⟨by decide, by decide,
    non_event_record_ignored _ _ _ (by decide) (by decide)⟩

/-- C8: every request issued by the five client operations carries the
headers built by `getHeaders`: `Content-Type: application/json` always,
and `X-Shared-Secret` with the secret as value exactly when a non-empty
secret is configured. -/
theorem client_request_headers (apiBase conversationId content : String)
    (sharedSecret : Option String) :
    (listConversationsRequest apiBase sharedSecret).headers =
      getHeaders sharedSecret ∧
    (createConversationRequest apiBase sharedSecret).headers =
      getHeaders sharedSecret ∧
    (getConversationRequest apiBase conversationId sharedSecret).headers =
      getHeaders sharedSecret ∧
    (sendMessageRequest apiBase conversationId content sharedSecret).headers =
      getHeaders sharedSecret ∧
    (sendMessageStreamRequest apiBase conversationId content
      sharedSecret).headers = getHeaders sharedSecret ∧
    ("Content-Type", "application/json") ∈ getHeaders sharedSecret ∧
    (∀ v, ("X-Shared-Secret", v) ∈ getHeaders sharedSecret ↔
      sharedSecret = some v ∧ v ≠ "") := by
  refine ⟨rfl, rfl, rfl, rfl, rfl, ?_, fun v => ?_⟩
  · rcases sharedSecret with _ | s
    · simp [getHeaders]
    · by_cases hs : s = "" <;> simp [getHeaders, hs]
  · rcases sharedSecret with _ | s
    · simp [getHeaders]
    · by_cases hs : s = ""
      · subst hs
        simp [getHeaders]
        exact fun h => h.symm
      · simp [getHeaders, hs]
        constructor
        · rintro rfl
          exact ⟨rfl, hs⟩
        · rintro ⟨he, hv⟩
          exact he.symm

/-- C9: the empty-string shared secret is treated exactly like an absent
secret: `getHeaders` omits `X-Shared-Secret` and every operation issues
the identical request. -/
theorem empty_secret_treated_as_absent (apiBase conversationId content : String) :
    getHeaders (some "") = getHeaders none ∧
    (∀ v, ("X-Shared-Secret", v) ∉ getHeaders (some "")) ∧
    listConversationsRequest apiBase (some "") =
      listConversationsRequest apiBase none ∧
    createConversationRequest apiBase (some "") =
      createConversationRequest apiBase none ∧
    getConversationRequest apiBase conversationId (some "") =
      getConversationRequest apiBase conversationId none ∧
    sendMessageRequest apiBase conversationId content (some "") =
      sendMessageRequest apiBase conversationId content none ∧
    sendMessageStreamRequest apiBase conversationId content (some "") =
      sendMessageStreamRequest apiBase conversationId content none := by
  refine ⟨rfl, fun v => ?_, rfl, rfl, rfl, rfl, rfl⟩
  simp [getHeaders]

/-- C10: counterexample.  The claim says every `data: ` record whose
payload parses as JSON but lacks a `type` field is still delivered with
an undefined type tag.  The payload `null` parses as JSON and has no
`type` field, yet the record is dropped: `event.type` on `null` throws a
TypeError inside the try, the catch swallows it, and the callback never
fires. -/
theorem null_event_not_delivered :
    jsonParse ("data: null".toList.drop 6) = some Json.null ∧
    Json.null.getField "type" = none ∧
    streamEvents ["data: null".toList ++ ['\n']] = [] :=
  ⟨rfl, rfl, rfl⟩

/-- C10 (amended): a `data: ` record whose payload parses as JSON to a
value other than the literal `null` and has no `type` field is still
delivered: the callback receives `undefined` (`none`) as the type tag
together with the parsed value; only the `null` payload is dropped, by
the caught TypeError of its `event.type` access. -/
theorem typeless_event_still_delivered (pre post : List (List Char))
    (r : List Char) (v : Json) (h1 : '\n' ∉ r) (h2 : r.take 6 = dataMark)
    (h3 : jsonParse (r.drop 6) = some v) (hnn : v.isNull = false)
    (h4 : v.getField "type" = none) :
    streamEvents (pre ++ [r ++ ['\n']] ++ post) =
      streamEvents pre ++ (none, v) :: streamEvents post := by
  rw [streamEvents_append, streamEvents_append]
  have hone : streamEvents [r ++ ['\n']] = [(none, v)] := by
    have hp := processLine_eq_some h2 h3 hnn
    rw [h4] at hp
    simp [streamEvents, processChunk_record_some h1 hp]
  rw [hone]
  simp

/-- Witness for C10 (amended): a record whose non-null JSON payload lacks
a `type` field is delivered with `none` as the type tag. -/
theorem typeless_event_still_delivered_witness :
    '\n' ∉ "data: \x7b\"x\":\"y\"\x7d".toList ∧
    "data: \x7b\"x\":\"y\"\x7d".toList.take 6 = dataMark ∧
    jsonParse ("data: \x7b\"x\":\"y\"\x7d".toList.drop 6) =
      some (.obj [("x", .str "y")]) ∧
    (Json.obj [("x", .str "y")]).isNull = false ∧
    (Json.obj [("x", .str "y")]).getField "type" = none ∧
    streamEvents ([] ++ ["data: \x7b\"x\":\"y\"\x7d".toList ++ ['\n']] ++ []) =
      streamEvents [] ++ (none, Json.obj [("x", .str "y")]) :: streamEvents [] :=
  ⟨by decide, by decide, rfl, rfl, rfl,
    typeless_event_still_delivered [] [] _ _ (by decide) (by decide) rfl rfl rfl⟩
